import Mathlib

/-!
Shallow embedding of the measurement-evaluation engine of
`src/app.py` (carbonation / rebound-hammer assessment tool).

Python floats are modelled as exact rationals (`ℚ`); `math.sqrt` and the
square root inside `np.std` are modelled as an explicit function parameter
`sqrt : ℚ → ℚ`, so every definition stays computable and every claim about
the guard structure around the square root can be stated for an arbitrary
square-root implementation.
-/

namespace CarbApp

/-- Angle-correction table of `get_angle_correction` (src/app.py, lines 23-29):
for each strike angle, an ascending association list breakpoint ↦ correction. -/
def correction_table : List (Int × List (ℚ × ℚ)) :=
  [(-90, [(20, 3.2), (30, 3.1), (40, 2.7), (50, 2.2), (60, 1.7)]),
   (-45, [(20, 2.4), (30, 2.3), (40, 2.0), (50, 1.6), (60, 1.3)]),
   (0,   [(20, 0.0), (30, 0.0), (40, 0.0), (50, 0.0), (60, 0.0)]),
   (45,  [(20, -3.5), (30, -3.1), (40, -2.0), (50, -2.7), (60, -1.6)]),
   (90,  [(20, -5.4), (30, -4.7), (40, -3.9), (50, -3.1), (60, -2.3)])]

/-- Python `dict` lookup `correction_table[angle]`, together with the
`angle not in correction_table` membership test (`none` when absent). -/
def lookupAngle : List (Int × List (ℚ × ℚ)) → Int → Option (List (ℚ × ℚ))
  | [], _ => none
  | (k, v) :: rest, a => if a = k then some v else lookupAngle rest a

/-- Python `dict` lookup `data[target_key]` in a breakpoint sub-table. -/
def lookupKey : List (ℚ × ℚ) → ℚ → Option ℚ
  | [], _ => none
  | (k, v) :: rest, a => if a = k then some v else lookupKey rest a

/-- The `for key in sorted_keys: if R_val >= key: target_key = key else: break`
loop of `get_angle_correction` (src/app.py, lines 37-41): `t` is the current
`target_key`. -/
def scanKeys (R_val : ℚ) : List ℚ → ℚ → ℚ
  | [], t => t
  | k :: rest, t => if R_val ≥ k then scanKeys R_val rest k else t

/-- `get_angle_correction(R_val, angle)` (src/app.py, lines 21-43): step lookup
of the correction for the largest breakpoint ≤ `R_val`; unknown angles give 0.
The sub-tables are written in ascending key order, so `sorted(data.keys())`
is the list of first components. -/
def get_angle_correction (R_val : ℚ) (angle : Int) : ℚ :=
  match lookupAngle correction_table angle with
  | none => 0.0
  | some data =>
    match data.map Prod.fst with
    | [] => 0.0
    | k0 :: rest =>
      let target_key := scanKeys R_val (k0 :: rest) k0
      ((lookupKey data target_key).getD 0)

/-- Age-coefficient anchor table of `get_age_coefficient` (src/app.py,
lines 47-51), in ascending day order. -/
def age_table : List (ℚ × ℚ) :=
  [(10, 1.55), (20, 1.12), (28, 1.00), (50, 0.87), (100, 0.78), (150, 0.74),
   (200, 0.72), (300, 0.70), (500, 0.67), (1000, 0.65), (3000, 0.63)]

/-- The interpolation loop of `get_age_coefficient` (src/app.py, lines 58-67):
scan consecutive anchor pairs, linearly interpolate in the first bracketing
pair, fall through to `1.0` if none matches. -/
def interpLoop (days : ℚ) : List (ℚ × ℚ) → ℚ
  | (d1, c1) :: (d2, c2) :: rest =>
    if d1 ≤ days ∧ days ≤ d2 then c1 + (days - d1) / (d2 - d1) * (c2 - c1)
    else interpLoop days ((d2, c2) :: rest)
  | _ => 1.0

/-- `get_age_coefficient(days)` (src/app.py, lines 45-67). -/
def get_age_coefficient (days : ℚ) : ℚ :=
  if days ≥ 3000 then 0.63
  else if days ≤ 10 then 1.55
  else interpLoop days age_table

/-- The three failure messages of `calculate_strength` (src/app.py, lines 75,
84, 87): data insufficient (< 5 readings), test invalid (≥ 20 readings and
more than 4 discarded; the payload is the discard count), no valid data. -/
inductive StrengthError where
  | dataInsufficient : StrengthError
  | testInvalid : Nat → StrengthError
  | noValidData : StrengthError
deriving DecidableEq, Repr

/-- The success dictionary returned by `calculate_strength` (src/app.py,
lines 105-112). -/
structure StrengthResult where
  R_avg : ℚ
  R0 : ℚ
  age_coeff : ℚ
  discard : Nat
  est : List ℚ
  mean_strength : ℚ
deriving DecidableEq, Repr

/-- The retention predicate of the outlier filter (src/app.py, line 79):
`avg1*0.8 <= r <= avg1*1.2`. -/
def insideBounds (avg1 r : ℚ) : Bool :=
  decide (avg1 * 0.8 ≤ r ∧ r ≤ avg1 * 1.2)

/-- `calculate_strength(readings, angle, days)` (src/app.py, lines 69-112):
outlier rejection around the mean, validity check, angle and age correction,
the five empirical formulas floored at zero, and the mean of all five. -/
def calculate_strength (readings : List ℚ) (angle : Int) (days : ℚ) :
    Except StrengthError StrengthResult :=
  if readings.length < 5 then .error .dataInsufficient
  else
    let avg1 : ℚ := readings.sum / readings.length
    let valid := readings.filter (insideBounds avg1)
    let discard_cnt := readings.length - valid.length
    if readings.length ≥ 20 ∧ discard_cnt > 4 then .error (.testInvalid discard_cnt)
    else if valid = [] then .error .noValidData
    else
      let R_final : ℚ := valid.sum / valid.length
      let corr := get_angle_correction R_final angle
      let R0 := R_final + corr
      let age_c := get_age_coefficient days
      let f_aij := (7.3 * R0 + 100) * 0.098 * age_c
      let f_jsms := (1.27 * R0 - 18.0) * age_c
      let f_mst := (15.2 * R0 - 112.8) * 0.098 * age_c
      let f_kwon := (2.304 * R0 - 38.80) * age_c
      let f_kalis := (1.3343 * R0 + 8.1977) * age_c
      let est_list := [f_aij, f_jsms, f_mst, f_kwon, f_kalis].map (fun x => max 0 x)
      let s_mean : ℚ := est_list.sum / est_list.length
      .ok { R_avg := R_final, R0 := R0, age_coeff := age_c, discard := discard_cnt,
            est := est_list, mean_strength := s_mean }

/-- Strength grade of the single-point handler (src/app.py, line 219):
A/B/C/D-E by the percentage of design strength. -/
inductive StrengthGrade where
  | A : StrengthGrade
  | B : StrengthGrade
  | C : StrengthGrade
  | DE : StrengthGrade
deriving DecidableEq, Repr

/-- `grade_mk` of the `btn_single` handler (src/app.py, line 219), applied to
`ratio = s_mean / design_fck * 100`. -/
def grade_mk (pct : ℚ) : StrengthGrade :=
  if pct ≥ 100 then .A else if pct ≥ 90 then .B else if pct ≥ 75 then .C else .DE

/-- The predicted-life display of the `btn_carb` handler (src/app.py,
lines 155-170): reached (`0년 (도달)`), a numeric year count, imminent
(`0년 (임박)`), no progression (`99년 이상`), incomputable (`계산 불가`). -/
inductive LifeDisp where
  | reached : LifeDisp
  | numeric : ℚ → LifeDisp
  | imminent : LifeDisp
  | noProgression : LifeDisp
  | incomputable : LifeDisp
deriving DecidableEq, Repr

/-- Carbonation grade of the `btn_carb` handler (src/app.py, lines 172-175). -/
inductive CarbGrade where
  | A : CarbGrade
  | B : CarbGrade
  | C : CarbGrade
  | D : CarbGrade
deriving DecidableEq, Repr

/-- The quantities computed by the `btn_carb` handler (src/app.py,
lines 152-183). -/
structure CarbResult where
  remaining : ℚ
  rate_coeff : ℚ
  life : LifeDisp
  is_danger : Bool
  grade : CarbGrade
deriving DecidableEq, Repr

/-- The `btn_carb` handler (src/app.py, lines 151-183). `sqrt` stands for
`math.sqrt`; it is only applied when `age_years > 0`,
mirroring `measured_depth / math.sqrt(age_years) if age_years > 0 else 0`. -/
def btn_carb (sqrt : ℚ → ℚ) (measured_depth design_cover age_years : ℚ) : CarbResult :=
  let remaining := design_cover - measured_depth
  let rate_coeff := if age_years > 0 then measured_depth / sqrt age_years else 0
  let life_danger : LifeDisp × Bool :=
    if rate_coeff > 0 then
      let total_time := (design_cover / rate_coeff) ^ 2
      let life_years := total_time - age_years
      if remaining ≤ 0 then (.reached, true)
      else if life_years > 0 then (.numeric life_years, false)
      else (.imminent, false)
    else if measured_depth = 0 then (.noProgression, false)
    else (.incomputable, false)
  let grade :=
    if remaining ≥ 30 then CarbGrade.A
    else if remaining ≥ 10 then CarbGrade.B
    else if remaining ≥ 0 then CarbGrade.C
    else CarbGrade.D
  { remaining := remaining, rate_coeff := rate_coeff, life := life_danger.1,
    is_danger := life_danger.2, grade := grade }

/-- Failure of the `btn_stat` handler (src/app.py, line 500): fewer than two
data values. -/
inductive StatError where
  | insufficientSamples : StatError
deriving DecidableEq, Repr

/-- The statistics computed by the `btn_stat` handler (src/app.py,
lines 502-506), Python names kept. -/
structure StatResult where
  st_mean : ℚ
  st_std : ℚ
  st_cov : ℚ
  st_max : ℚ
  st_min : ℚ
deriving DecidableEq, Repr

/-- `np.max` on a list (0 on the empty list, which `btn_stat` never hits). -/
def np_max : List ℚ → ℚ
  | [] => 0
  | x :: xs => xs.foldl max x

/-- `np.min` on a list (0 on the empty list, which `btn_stat` never hits). -/
def np_min : List ℚ → ℚ
  | [] => 0
  | x :: xs => xs.foldl min x

/-- The `btn_stat` handler (src/app.py, lines 496-506): mean, sample standard
deviation (`np.std(data, ddof=1)`, i.e. `sqrt` of the sum of squared
deviations over `n - 1`), coefficient of variation (0 unless the mean is
positive), max and min. `sqrt` stands for the square root inside `np.std`. -/
def btn_stat (sqrt : ℚ → ℚ) (data_s : List ℚ) : Except StatError StatResult :=
  if data_s.length < 2 then .error .insufficientSamples
  else
    let st_mean : ℚ := data_s.sum / data_s.length
    let st_var : ℚ := (data_s.map (fun x => (x - st_mean) ^ 2)).sum / ((data_s.length : ℚ) - 1)
    let st_std := sqrt st_var
    let st_cov := if st_mean > 0 then st_std / st_mean * 100 else 0
    .ok { st_mean := st_mean, st_std := st_std, st_cov := st_cov,
          st_max := np_max data_s, st_min := np_min data_s }

/-! ## Concrete inputs used by the claims -/

/-- The 20 default readings of the single-point strength form
(src/app.py, line 206), the input of end-to-end scenario 1. -/
def scenario1 : List ℚ :=
  [54, 56, 55, 53, 58, 55, 54, 55, 52, 57, 55, 56, 54, 55, 59, 42, 55, 56, 54, 55]

/-! ## C1 -/

/-- C1, counterexample: on the end-to-end scenario 1 input (where the design
strength 24 is below 40, so the claimed target subset is the first two formula
values `f_aij` and `f_jsms`), the evaluation succeeds with
`mean_strength = 845969943/19000000 ≈ 44.52`, while the mean of the claimed
subset is `7819903/237500 ≈ 32.93`; the two differ, so `mean_strength` is not
the mean of the design-strength-selected subset. -/
theorem c1_counterexample :
    (calculate_strength scenario1 0 1000).toOption.map (fun r => r.mean_strength)
        = some (845969943 / 19000000)
  ∧ (calculate_strength scenario1 0 1000).toOption.map
        (fun r => (r.est.getD 0 0 + r.est.getD 1 0) / 2) = some (7819903 / 237500)
  ∧ (845969943 / 19000000 : ℚ) ≠ 7819903 / 237500 := by
  refine ⟨?_, ?_, by norm_num⟩ <;>
    norm_num [calculate_strength, scenario1, insideBounds, get_angle_correction,
      correction_table, scanKeys, get_age_coefficient, age_table, interpLoop,
      List.filter, lookupAngle, lookupKey, max_def, Except.toOption, List.cons_ne_nil]

/-- C1, amended: for every successful strength evaluation, `mean_strength` is
the arithmetic mean of all five floored formula values; no design-strength
subset selection takes place (`design_fck` is not even an input of
`calculate_strength`), so the estimate list always has five members and
`mean_strength` is their sum divided by 5. -/
theorem c1_mean_strength_all_five (readings : List ℚ) (angle : Int) (days : ℚ) :
    (calculate_strength readings angle days).toOption.map
        (fun r => (r.mean_strength, r.est.length))
      = (calculate_strength readings angle days).toOption.map
        (fun r => (r.est.sum / 5, 5)) := by
  simp only [calculate_strength]
  split_ifs <;> simp [Except.toOption]

/-! ## C2 -/

/-- C2, counterexample: on the scenario-1 input the evaluation succeeds, but
`mean_strength = 845969943/19000000 ≈ 44.52` is not close to the claimed 32.9
(it is not even below 33), and the resulting design ratio
`mean_strength / 24 * 100 ≈ 185.5` is not close to the claimed 137% (it is not
even below 140%). -/
theorem c2_counterexample :
    (calculate_strength scenario1 0 1000).toOption.map (fun r => r.mean_strength)
        = some (845969943 / 19000000)
  ∧ ¬ ((845969943 / 19000000 : ℚ) < 33)
  ∧ ¬ ((845969943 / 19000000 : ℚ) / 24 * 100 < 140) := by
  refine ⟨?_, by norm_num, by norm_num⟩
  norm_num [calculate_strength, scenario1, insideBounds, get_angle_correction,
    correction_table, scanKeys, get_age_coefficient, age_table, interpLoop,
    List.filter, lookupAngle, lookupKey, max_def, Except.toOption, List.cons_ne_nil]

/-- C2, amended: on the scenario-1 input with angle 0, age 1000 days and
design strength 24, the evaluation succeeds with `avg1 = 54.5`, only the
value 42 excluded (discard count 1, 19 valid readings),
`R_avg = R0 = 1048/19 ≈ 55.16`, age coefficient exactly `0.65`,
`f_aij ≈ 32.0`, `f_jsms ≈ 33.8`, `mean_strength ≈ 44.5` (the mean of all five
formulas, not of a two-formula subset), design ratio ≈ 185.5% and grade A. -/
theorem c2_scenario1_end_to_end :
    scenario1.sum / scenario1.length = 54.5
  ∧ scenario1.filter (insideBounds (scenario1.sum / scenario1.length))
      = [54, 56, 55, 53, 58, 55, 54, 55, 52, 57, 55, 56, 54, 55, 59, 55, 56, 54, 55]
  ∧ calculate_strength scenario1 0 1000
      = .ok { R_avg := 1048 / 19, R0 := 1048 / 19, age_coeff := 0.65, discard := 1,
              est := [3802253 / 118750, 80353 / 2375, 577759 / 12500,
                      1362881 / 23750, 202033351 / 3800000],
              mean_strength := 845969943 / 19000000 }
  ∧ (55.155 ≤ (1048 / 19 : ℚ) ∧ (1048 / 19 : ℚ) < 55.165)
  ∧ (31.95 ≤ (3802253 / 118750 : ℚ) ∧ (3802253 / 118750 : ℚ) < 32.05)
  ∧ (33.75 ≤ (80353 / 2375 : ℚ) ∧ (80353 / 2375 : ℚ) < 33.85)
  ∧ (44.45 ≤ (845969943 / 19000000 : ℚ) ∧ (845969943 / 19000000 : ℚ) < 44.55)
  ∧ (185.45 ≤ (845969943 / 19000000 : ℚ) / 24 * 100
      ∧ (845969943 / 19000000 : ℚ) / 24 * 100 < 185.55)
  ∧ grade_mk ((845969943 / 19000000 : ℚ) / 24 * 100) = .A := by
  refine ⟨?_, ?_, ?_, by norm_num, by norm_num, by norm_num, by norm_num, by norm_num, ?_⟩ <;>
    norm_num [calculate_strength, scenario1, insideBounds, get_angle_correction,
      correction_table, scanKeys, get_age_coefficient, age_table, interpLoop,
      List.filter, lookupAngle, lookupKey, max_def, Except.toOption, List.cons_ne_nil,
      grade_mk]

/-! ## C3 -/

/-- C3: for every reading set with at least 20 members in which more than 4
readings lie outside the closed interval `[0.8*avg1, 1.2*avg1]` around the
mean `avg1` of all readings, the evaluation fails with the test-invalid error
(whose payload is the discard count), so no strength values are produced. -/
theorem c3_test_invalid (readings : List ℚ) (angle : Int) (days : ℚ)
    (h20 : 20 ≤ readings.length)
    (hout : 4 < (readings.filter
        (fun r => !(insideBounds (readings.sum / readings.length) r))).length) :
    calculate_strength readings angle days
      = .error (.testInvalid (readings.length
          - (readings.filter (insideBounds (readings.sum / readings.length))).length)) := by
  have hsplit := @List.length_eq_length_filter_add ℚ readings
      (insideBounds (readings.sum / readings.length))
  simp only [calculate_strength]
  rw [if_neg (by omega), if_pos ⟨h20, by omega⟩]

/-- A 20-reading set whose mean is 37.5, so that every reading falls outside
the retained band `[30, 45]` and the test is rejected. -/
def bad20 : List ℚ :=
  [50, 50, 50, 50, 50, 50, 50, 50, 50, 50, 50, 50, 50, 50, 50, 0, 0, 0, 0, 0]

/-- C3, witness: the concrete 20-reading set `bad20` has all 20 readings
outside the band, and the evaluation indeed fails with the test-invalid
error. -/
theorem c3_witness :
    calculate_strength bad20 0 28
      = .error (.testInvalid (bad20.length
          - (bad20.filter (insideBounds (bad20.sum / bad20.length))).length)) :=
  c3_test_invalid bad20 0 28 (by norm_num [bad20])
    (by norm_num [bad20, insideBounds, List.filter])

/-! ## C10 -/

/-- C10: whenever the strength evaluation fails with the no-valid-data error
(empty retained subset), the input set had between 5 and 19 members: sets with
fewer than 5 members fail earlier with data-insufficient, and for sets of 20
or more members an empty retained subset makes the discard count at least 20,
so the test-invalid check fires first. -/
theorem c10_no_valid_data (readings : List ℚ) (angle : Int) (days : ℚ)
    (h : calculate_strength readings angle days = .error .noValidData) :
    5 ≤ readings.length ∧ readings.length ≤ 19 := by
  by_cases h5 : readings.length < 5
  · simp only [calculate_strength, if_pos h5] at h
    simp at h
  · refine ⟨by omega, ?_⟩
    by_contra hgt
    push_neg at hgt
    simp only [calculate_strength, if_neg h5] at h
    by_cases hv : readings.filter (insideBounds (readings.sum / readings.length)) = []
    · have h0 : (readings.filter (insideBounds (readings.sum / readings.length))).length = 0 := by
        rw [hv]; rfl
      rw [if_pos ⟨by omega, by omega⟩] at h
      simp at h
    · by_cases hcond : 20 ≤ readings.length ∧ 4 < readings.length
          - (readings.filter (insideBounds (readings.sum / readings.length))).length
      · rw [if_pos hcond] at h
        simp at h
      · rw [if_neg hcond, if_neg hv] at h
        simp at h

/-- A 5-reading set whose mean is 0.4: the band is `[0.32, 0.48]` and no
reading lies inside it, so the retained subset is empty. -/
def noValid5 : List ℚ := [-10, 10, -10, 10, 2]

/-- C10, witness: the concrete 5-reading set `noValid5` fails with the
no-valid-data error, and its size is indeed between 5 and 19. -/
theorem c10_witness : 5 ≤ noValid5.length ∧ noValid5.length ≤ 19 :=
  c10_no_valid_data noValid5 0 28
    (by norm_num [calculate_strength, noValid5, insideBounds, List.filter])

/-! ## C4 -/

/-- The carbonation grade rule exactly as the claim words it: A when the
remaining depth is at least 30 mm, B when it is in `[10, 30)`, C when it is
in `[0, 10)` (so exactly 0 gives C), D when it is negative. -/
def carbGradeSpec (remaining_depth : ℚ) : CarbGrade :=
  if 30 ≤ remaining_depth then .A
  else if 10 ≤ remaining_depth ∧ remaining_depth < 30 then .B
  else if 0 ≤ remaining_depth ∧ remaining_depth < 10 then .C
  else .D

/-- C4: for every carbonation evaluation the assigned grade equals the
claimed rule applied to `remaining_depth = design_cover - measured_depth`,
with inclusive lower bounds (in particular a remaining depth of exactly 0
gives grade C, and only negative remaining depths give D). -/
theorem c4_carb_grade (sqrt : ℚ → ℚ) (measured_depth design_cover age_years : ℚ) :
    (btn_carb sqrt measured_depth design_cover age_years).grade
      = carbGradeSpec (design_cover - measured_depth) := by
  have main : ∀ r : ℚ,
      (if r ≥ 30 then CarbGrade.A else if r ≥ 10 then CarbGrade.B
        else if r ≥ 0 then CarbGrade.C else CarbGrade.D) = carbGradeSpec r := by
    intro r
    unfold carbGradeSpec
    by_cases h30 : r ≥ 30
    · rw [if_pos h30, if_pos (show (30 : ℚ) ≤ r from h30)]
    · rw [if_neg h30, if_neg (show ¬(30 : ℚ) ≤ r from h30)]
      by_cases h10 : r ≥ 10
      · rw [if_pos h10,
          if_pos (show (10 : ℚ) ≤ r ∧ r < 30 from ⟨h10, lt_of_not_le h30⟩)]
      · rw [if_neg h10,
          if_neg (show ¬((10 : ℚ) ≤ r ∧ r < 30) from fun hc => h10 hc.1)]
        by_cases h0 : r ≥ 0
        · rw [if_pos h0,
            if_pos (show (0 : ℚ) ≤ r ∧ r < 10 from ⟨h0, lt_of_not_le h10⟩)]
        · rw [if_neg h0,
            if_neg (show ¬((0 : ℚ) ≤ r ∧ r < 10) from fun hc => h0 hc.1)]
  simp only [btn_carb]
  exact main _

/-! ## C5 -/

/-- Consecutive anchor pairs of a table, i.e. the `(sorted_days[i],
sorted_days[i+1])` pairs scanned by the interpolation loop. -/
def pairUp : List (ℚ × ℚ) → List ((ℚ × ℚ) × (ℚ × ℚ))
  | a :: b :: rest => (a, b) :: pairUp (b :: rest)
  | _ => []

/-- The interpolation loop lands in a bracketing pair of consecutive anchors
whenever the argument is above the first anchor and some anchor is above it. -/
theorem interpLoop_bracket (days : ℚ) :
    ∀ (l : List (ℚ × ℚ)) (d1 c1 : ℚ), d1 ≤ days → (∃ p ∈ l, days ≤ p.1) →
      ∃ pq ∈ pairUp ((d1, c1) :: l), pq.1.1 ≤ days ∧ days ≤ pq.2.1 ∧
        interpLoop days ((d1, c1) :: l)
          = pq.1.2 + (days - pq.1.1) / (pq.2.1 - pq.1.1) * (pq.2.2 - pq.1.2) := by
  intro l
  induction l with
  | nil =>
    intro d1 c1 _ hex
    simp at hex
  | cons b rest ih =>
    intro d1 c1 hd1 hex
    obtain ⟨d2, c2⟩ := b
    by_cases hle : days ≤ d2
    · refine ⟨((d1, c1), (d2, c2)), ?_, hd1, hle, ?_⟩
      · simp [pairUp]
      · simp only [interpLoop]
        rw [if_pos ⟨hd1, hle⟩]
    · obtain ⟨p, hp, hdp⟩ := hex
      rcases List.mem_cons.mp hp with rfl | hp'
      · exact absurd hdp hle
      · have h2 : d2 ≤ days := le_of_not_le hle
        obtain ⟨pq, hpq, hb1, hb2, heq⟩ := ih d2 c2 h2 ⟨p, hp', hdp⟩
        refine ⟨pq, ?_, hb1, hb2, ?_⟩
        · simp only [pairUp, List.mem_cons]
          exact Or.inr hpq
        · calc interpLoop days ((d1, c1) :: (d2, c2) :: rest)
              = interpLoop days ((d2, c2) :: rest) := by
                simp only [interpLoop]
                exact if_neg (fun hand => hle hand.2)
          _ = _ := heq

/-- The interpolation loop stays inside `[0.63, 1.55]` whenever every anchor
coefficient of the table does (the fallback value 1.0 also does). -/
theorem interpLoop_bounds :
    ∀ (l : List (ℚ × ℚ)) (days : ℚ),
      (∀ p ∈ l, (0.63 : ℚ) ≤ p.2 ∧ p.2 ≤ 1.55) →
      (0.63 : ℚ) ≤ interpLoop days l ∧ interpLoop days l ≤ 1.55 := by
  intro l
  induction l with
  | nil =>
    intro days _
    constructor <;> norm_num [interpLoop]
  | cons a tail ih =>
    intro days hall
    cases tail with
    | nil =>
      obtain ⟨d1, c1⟩ := a
      constructor <;> norm_num [interpLoop]
    | cons b rest =>
      obtain ⟨d1, c1⟩ := a
      obtain ⟨d2, c2⟩ := b
      have hc1 := hall (d1, c1) (by simp)
      have hc2 := hall (d2, c2) (by simp)
      simp only [interpLoop]
      split_ifs with hbr
      · obtain ⟨hx1, hx2⟩ := hbr
        by_cases hdd : d1 < d2
        · have hpos : (0 : ℚ) < d2 - d1 := by linarith
          have ht0 : 0 ≤ (days - d1) / (d2 - d1) := div_nonneg (by linarith) (by linarith)
          have ht1 : (days - d1) / (d2 - d1) ≤ 1 := by
            rw [div_le_one hpos]; linarith
          constructor
          · nlinarith [mul_nonneg ht0 (by linarith : (0 : ℚ) ≤ c2 - 0.63),
              mul_nonneg (by linarith : (0 : ℚ) ≤ 1 - (days - d1) / (d2 - d1))
                (by linarith : (0 : ℚ) ≤ c1 - 0.63)]
          · nlinarith [mul_nonneg ht0 (by linarith : (0 : ℚ) ≤ 1.55 - c2),
              mul_nonneg (by linarith : (0 : ℚ) ≤ 1 - (days - d1) / (d2 - d1))
                (by linarith : (0 : ℚ) ≤ 1.55 - c1)]
        · have h0 : d2 - d1 = 0 := by linarith
          rw [h0, div_zero, zero_mul, add_zero]
          exact hc1
      · exact ih days (fun p hp => hall p (List.mem_cons_of_mem _ hp))

/-- C5: the age coefficient is 0.63 from 3000 days up and 1.55 up to 10 days;
strictly between, it is the linear interpolation between a bracketing pair of
consecutive anchors of the fixed table; at 64 days it is exactly 0.8448, at
28 days exactly 1; and every value lies in `[0.63, 1.55]`. -/
theorem c5_age_coefficient :
    (∀ days : ℚ, 3000 ≤ days → get_age_coefficient days = 0.63)
  ∧ (∀ days : ℚ, days ≤ 10 → get_age_coefficient days = 1.55)
  ∧ (∀ days : ℚ, 10 < days → days < 3000 →
      ∃ pq ∈ pairUp age_table, pq.1.1 ≤ days ∧ days ≤ pq.2.1 ∧
        get_age_coefficient days
          = pq.1.2 + (days - pq.1.1) / (pq.2.1 - pq.1.1) * (pq.2.2 - pq.1.2))
  ∧ get_age_coefficient 64 = 0.8448
  ∧ get_age_coefficient 28 = 1
  ∧ (∀ days : ℚ, 0.63 ≤ get_age_coefficient days ∧ get_age_coefficient days ≤ 1.55) := by
  refine ⟨?_, ?_, ?_, ?_, ?_, ?_⟩
  · intro days h
    rw [get_age_coefficient, if_pos (show days ≥ 3000 from h)]
  · intro days h
    rw [get_age_coefficient, if_neg (show ¬(days ≥ 3000) by intro hc; linarith),
      if_pos h]
  · intro days h10 h3000
    have hiff : get_age_coefficient days = interpLoop days age_table := by
      rw [get_age_coefficient, if_neg (show ¬(days ≥ 3000) by intro hc; linarith),
        if_neg (by linarith)]
    have hb := interpLoop_bracket days
      [(20, 1.12), (28, 1.00), (50, 0.87), (100, 0.78), (150, 0.74),
       (200, 0.72), (300, 0.70), (500, 0.67), (1000, 0.65), (3000, 0.63)]
      10 1.55 (by linarith) ⟨(3000, 0.63), by norm_num, by linarith⟩
    rw [hiff]
    simpa only [age_table] using hb
  · norm_num [get_age_coefficient, interpLoop, age_table]
  · norm_num [get_age_coefficient, interpLoop, age_table]
  · intro days
    rw [get_age_coefficient]
    split_ifs
    · constructor <;> norm_num
    · constructor <;> norm_num
    · exact interpLoop_bounds age_table days (by norm_num [age_table])

/-- C5, witness: the clamped value at 5000 days and the interpolated value at
64 days, taken from the claim theorem at concrete inputs. -/
theorem c5_witness :
    get_age_coefficient 5000 = 0.63 ∧ get_age_coefficient 64 = 0.8448 :=
  ⟨c5_age_coefficient.1 5000 (by norm_num), c5_age_coefficient.2.2.2.1⟩

/-! ## C6 -/

/-- The breakpoint the claim says the step lookup selects: the largest
breakpoint of `{20, 30, 40, 50, 60}` that is ≤ the index value, with the
smallest breakpoint 20 used as the below-floor default. -/
def selectedBreakpoint (R : ℚ) : ℚ :=
  if 60 ≤ R then 60 else if 50 ≤ R then 50 else if 40 ≤ R then 40
  else if 30 ≤ R then 30 else 20

/-- The correction entry of `angle`'s sub-table at breakpoint `bp` (0 when the
angle or the breakpoint is absent from the table). -/
def subTableEntry (angle : Int) (bp : ℚ) : ℚ :=
  (lookupKey ((lookupAngle correction_table angle).getD []) bp).getD 0

/-- The scan loop over the breakpoints `[20, 30, 40, 50, 60]` selects exactly
the largest breakpoint ≤ the index value, defaulting to 20. -/
theorem scanKeys_breakpoints (R : ℚ) :
    scanKeys R [20, 30, 40, 50, 60] 20 = selectedBreakpoint R := by
  simp only [scanKeys, selectedBreakpoint]
  split_ifs <;> first | rfl | linarith

/-- C6: for the five tabulated strike angles the correction is the sub-table
entry of the largest breakpoint ≤ the index value (breakpoint 20 when the
value is below 20); any other angle yields 0 rather than failing; and angle 0
yields 0 for every index value. -/
theorem c6_angle_correction :
    (∀ (R : ℚ) (a : Int), a ∈ ([-90, -45, 0, 45, 90] : List Int) →
        get_angle_correction R a = subTableEntry a (selectedBreakpoint R))
  ∧ (∀ (R : ℚ) (a : Int), a ∉ ([-90, -45, 0, 45, 90] : List Int) →
        get_angle_correction R a = 0)
  ∧ (∀ R : ℚ, get_angle_correction R 0 = 0) := by
  have hmain : ∀ (R : ℚ) (a : Int), a ∈ ([-90, -45, 0, 45, 90] : List Int) →
      get_angle_correction R a = subTableEntry a (selectedBreakpoint R) := by
    intro R a ha
    have hscan := scanKeys_breakpoints R
    fin_cases ha <;>
      simp_all [get_angle_correction, subTableEntry, correction_table, lookupAngle]
  refine ⟨hmain, ?_, ?_⟩
  · intro R a ha
    simp only [List.mem_cons, List.not_mem_nil, or_false, not_or] at ha
    obtain ⟨h1, h2, h3, h4, h5⟩ := ha
    simp only [get_angle_correction, correction_table, lookupAngle,
      if_neg h1, if_neg h2, if_neg h3, if_neg h4, if_neg h5]
    norm_num
  · intro R
    rw [hmain R 0 (by norm_num)]
    rw [subTableEntry]
    unfold selectedBreakpoint
    split_ifs <;> norm_num [correction_table, lookupAngle, lookupKey]

/-- C6, witness: the correction at index 25 for angle +45 follows the claimed
selection rule, and an unrecognized angle such as 7 yields 0. -/
theorem c6_witness :
    get_angle_correction 25 45 = subTableEntry 45 (selectedBreakpoint 25)
  ∧ get_angle_correction 25 7 = 0 :=
  ⟨c6_angle_correction.1 25 45 (by norm_num),
   c6_angle_correction.2.1 25 7 (by norm_num)⟩

/-! ## C7 -/

/-- Whether a predicted-life display can only have been produced by the
branch that divides by the rate coefficient (src/app.py, lines 159-168). -/
def usedDivision : LifeDisp → Bool
  | .reached => true
  | .numeric _ => true
  | .imminent => true
  | .noProgression => false
  | .incomputable => false

/-- C7: the division by the square root of the age is guarded: a non-positive
age gives rate coefficient 0 without the division; a zero measured depth gives
rate coefficient 0 and the no-progression sentinel as the predicted life; and
the branch computing a life through division executes only when the rate
coefficient is positive. -/
theorem c7_sqrt_guard (sqrt : ℚ → ℚ) (measured_depth design_cover age_years : ℚ) :
    (age_years ≤ 0 →
      (btn_carb sqrt measured_depth design_cover age_years).rate_coeff = 0)
  ∧ (measured_depth = 0 →
      (btn_carb sqrt measured_depth design_cover age_years).rate_coeff = 0
      ∧ (btn_carb sqrt measured_depth design_cover age_years).life = .noProgression)
  ∧ (usedDivision (btn_carb sqrt measured_depth design_cover age_years).life = true →
      0 < (btn_carb sqrt measured_depth design_cover age_years).rate_coeff) := by
  refine ⟨?_, ?_, ?_⟩
  · intro h
    simp only [btn_carb]
    rw [if_neg (not_lt.mpr h)]
  · intro h
    subst h
    have hq : (if age_years > 0 then (0 : ℚ) / sqrt age_years else 0) = 0 := by
      split_ifs with h1
      · exact zero_div _
      · rfl
    constructor
    · simp only [btn_carb]
      exact hq
    · simp only [btn_carb]
      rw [hq]
      norm_num
  · intro hud
    by_cases h1 : 0 < (btn_carb sqrt measured_depth design_cover age_years).rate_coeff
    · exact h1
    · exfalso
      simp only [btn_carb] at hud h1
      rw [if_neg h1] at hud
      split_ifs at hud <;> simp [usedDivision] at hud

/-- C7, witness: with zero measured depth (cover 40 mm, age 20 years, any
square-root implementation, here the constant 3) the rate coefficient is 0
and the life display is the no-progression sentinel. -/
theorem c7_witness :
    (btn_carb (fun _ => 3) 0 40 20).rate_coeff = 0
    ∧ (btn_carb (fun _ => 3) 0 40 20).life = .noProgression :=
  (c7_sqrt_guard (fun _ => 3) 0 40 20).2.1 rfl

/-! ## C8 -/

/-- A left fold of `max` is the seed or a list member. -/
theorem foldl_max_choice :
    ∀ (xs : List ℚ) (x : ℚ), xs.foldl max x = x ∨ xs.foldl max x ∈ xs := by
  intro xs
  induction xs with
  | nil => intro x; left; rfl
  | cons a as ih =>
    intro x
    simp only [List.foldl_cons]
    rcases ih (max x a) with h | h
    · rcases max_choice x a with hm | hm
      · left; rw [h, hm]
      · right; rw [h, hm]; exact List.mem_cons_self a as
    · right; exact List.mem_cons_of_mem a h

/-- The seed is below a left fold of `max`. -/
theorem le_foldl_max : ∀ (xs : List ℚ) (x : ℚ), x ≤ xs.foldl max x := by
  intro xs
  induction xs with
  | nil => intro x; exact le_refl x
  | cons a as ih =>
    intro x
    simp only [List.foldl_cons]
    exact le_trans (le_max_left x a) (ih (max x a))

/-- Every list member is below a left fold of `max`. -/
theorem mem_le_foldl_max :
    ∀ (xs : List ℚ) (x y : ℚ), y ∈ xs → y ≤ xs.foldl max x := by
  intro xs
  induction xs with
  | nil => intro x y h; exact absurd h (List.not_mem_nil y)
  | cons a as ih =>
    intro x y h
    simp only [List.foldl_cons]
    rcases List.mem_cons.mp h with rfl | h'
    · exact le_trans (le_max_right x y) (le_foldl_max as (max x y))
    · exact ih (max x a) y h'

/-- A left fold of `min` is the seed or a list member. -/
theorem foldl_min_choice :
    ∀ (xs : List ℚ) (x : ℚ), xs.foldl min x = x ∨ xs.foldl min x ∈ xs := by
  intro xs
  induction xs with
  | nil => intro x; left; rfl
  | cons a as ih =>
    intro x
    simp only [List.foldl_cons]
    rcases ih (min x a) with h | h
    · rcases min_choice x a with hm | hm
      · left; rw [h, hm]
      · right; rw [h, hm]; exact List.mem_cons_self a as
    · right; exact List.mem_cons_of_mem a h

/-- The seed is above a left fold of `min`. -/
theorem foldl_min_le : ∀ (xs : List ℚ) (x : ℚ), xs.foldl min x ≤ x := by
  intro xs
  induction xs with
  | nil => intro x; exact le_refl x
  | cons a as ih =>
    intro x
    simp only [List.foldl_cons]
    exact le_trans (ih (min x a)) (min_le_left x a)

/-- Every list member is above a left fold of `min`. -/
theorem foldl_min_le_mem :
    ∀ (xs : List ℚ) (x y : ℚ), y ∈ xs → xs.foldl min x ≤ y := by
  intro xs
  induction xs with
  | nil => intro x y h; exact absurd h (List.not_mem_nil y)
  | cons a as ih =>
    intro x y h
    simp only [List.foldl_cons]
    rcases List.mem_cons.mp h with rfl | h'
    · exact le_trans (foldl_min_le as (min x y)) (min_le_right x y)
    · exact ih (min x a) y h'

/-- `np_max` of a nonempty list is a member. -/
theorem np_max_mem (l : List ℚ) (h : l ≠ []) : np_max l ∈ l := by
  cases l with
  | nil => exact absurd rfl h
  | cons x xs =>
    simp only [np_max]
    rcases foldl_max_choice xs x with hc | hc
    · rw [hc]; exact List.mem_cons_self x xs
    · exact List.mem_cons_of_mem x hc

/-- `np_max` bounds every member from above. -/
theorem le_np_max (l : List ℚ) (y : ℚ) (hy : y ∈ l) : y ≤ np_max l := by
  cases l with
  | nil => exact absurd hy (List.not_mem_nil y)
  | cons x xs =>
    simp only [np_max]
    rcases List.mem_cons.mp hy with rfl | h'
    · exact le_foldl_max xs y
    · exact mem_le_foldl_max xs x y h'

/-- `np_min` of a nonempty list is a member. -/
theorem np_min_mem (l : List ℚ) (h : l ≠ []) : np_min l ∈ l := by
  cases l with
  | nil => exact absurd rfl h
  | cons x xs =>
    simp only [np_min]
    rcases foldl_min_choice xs x with hc | hc
    · rw [hc]; exact List.mem_cons_self x xs
    · exact List.mem_cons_of_mem x hc

/-- `np_min` bounds every member from below. -/
theorem np_min_le (l : List ℚ) (y : ℚ) (hy : y ∈ l) : np_min l ≤ y := by
  cases l with
  | nil => exact absurd hy (List.not_mem_nil y)
  | cons x xs =>
    simp only [np_min]
    rcases List.mem_cons.mp hy with rfl | h'
    · exact foldl_min_le xs y
    · exact foldl_min_le_mem xs x y h'

/-- C8: with fewer than 2 values the statistics computation fails with the
insufficient-samples error; with at least 2 values it returns the arithmetic
mean, the sample standard deviation (square root of the squared-deviation sum
divided by `n - 1`), the coefficient of variation `std/mean*100` (0 whenever
the mean is non-positive), and a max and min that are members of the data and
bound it. -/
theorem c8_statistics (sqrt : ℚ → ℚ) (data_s : List ℚ) :
    (data_s.length < 2 → btn_stat sqrt data_s = .error .insufficientSamples)
  ∧ (2 ≤ data_s.length → ∃ r, btn_stat sqrt data_s = .ok r
      ∧ r.st_mean = data_s.sum / data_s.length
      ∧ r.st_std = sqrt ((data_s.map (fun x => (x - data_s.sum / data_s.length) ^ 2)).sum
          / ((data_s.length : ℚ) - 1))
      ∧ (r.st_mean ≤ 0 → r.st_cov = 0)
      ∧ (0 < r.st_mean → r.st_cov = r.st_std / r.st_mean * 100)
      ∧ r.st_max ∈ data_s ∧ (∀ x ∈ data_s, x ≤ r.st_max)
      ∧ r.st_min ∈ data_s ∧ (∀ x ∈ data_s, r.st_min ≤ x)) := by
  constructor
  · intro h
    rw [btn_stat, if_pos h]
  · intro h
    have hne : data_s ≠ [] := by
      intro heq
      subst heq
      exact absurd h (by norm_num)
    rw [btn_stat, if_neg (by omega)]
    refine ⟨_, rfl, rfl, rfl, ?_, ?_, np_max_mem _ hne, fun x hx => le_np_max _ x hx,
      np_min_mem _ hne, fun x hx => np_min_le _ x hx⟩
    · intro hm
      exact if_neg (not_lt.mpr hm)
    · intro hm
      exact if_pos hm

/-- C8, witness: a single value is rejected with the insufficient-samples
error. -/
theorem c8_witness : btn_stat (fun _ => 0) [5] = .error .insufficientSamples :=
  (c8_statistics (fun _ => 0) [5]).1 (by norm_num)

/-! ## C9 -/

/-- C9: the hazard flag is set exactly when the rate coefficient is positive
and the remaining depth is at most 0; in particular, a positive measured
depth with remaining depth exactly 0 sets the hazard flag while the grade is
C, not D, so the hazard flag is strictly broader than grade D. -/
theorem c9_hazard (sqrt : ℚ → ℚ) (measured_depth design_cover age_years : ℚ) :
    ((btn_carb sqrt measured_depth design_cover age_years).is_danger = true ↔
      0 < (btn_carb sqrt measured_depth design_cover age_years).rate_coeff
      ∧ (btn_carb sqrt measured_depth design_cover age_years).remaining ≤ 0)
  ∧ (0 < measured_depth → design_cover = measured_depth → 0 < age_years →
      0 < sqrt age_years →
      (btn_carb sqrt measured_depth design_cover age_years).is_danger = true
      ∧ (btn_carb sqrt measured_depth design_cover age_years).grade = CarbGrade.C
      ∧ (btn_carb sqrt measured_depth design_cover age_years).grade ≠ CarbGrade.D) := by
  have hiff : (btn_carb sqrt measured_depth design_cover age_years).is_danger = true ↔
      0 < (btn_carb sqrt measured_depth design_cover age_years).rate_coeff
      ∧ (btn_carb sqrt measured_depth design_cover age_years).remaining ≤ 0 := by
    simp only [btn_carb]
    set q : ℚ := if age_years > 0 then measured_depth / sqrt age_years else 0 with hq
    by_cases h1 : q > 0
    · rw [if_pos h1]
      by_cases h2 : design_cover - measured_depth ≤ 0
      · rw [if_pos h2]
        exact iff_of_true rfl ⟨h1, h2⟩
      · rw [if_neg h2]
        split_ifs <;>
          exact iff_of_false (by simp) (fun hcon => h2 hcon.2)
    · rw [if_neg h1]
      split_ifs <;>
        exact iff_of_false (by simp) (fun hcon => h1 hcon.1)
  refine ⟨hiff, fun hm hc ha hs => ?_⟩
  have hrate : (btn_carb sqrt measured_depth design_cover age_years).rate_coeff
      = measured_depth / sqrt age_years := by
    simp only [btn_carb]
    rw [if_pos ha]
  have hrem : (btn_carb sqrt measured_depth design_cover age_years).remaining = 0 := by
    simp only [btn_carb]
    rw [hc, sub_self]
  have hd : (btn_carb sqrt measured_depth design_cover age_years).is_danger = true :=
    hiff.mpr ⟨by rw [hrate]; exact div_pos hm hs, by rw [hrem]⟩
  have hg : (btn_carb sqrt measured_depth design_cover age_years).grade = CarbGrade.C := by
    simp only [btn_carb]
    rw [hc, sub_self]
    norm_num
  exact ⟨hd, hg, by simp [hg]⟩

/-- C9, witness: measured depth 40 mm with cover 40 mm after 4 years (square
root modelled as the constant 2): the hazard flag is set and the grade is C,
not D. -/
theorem c9_witness :
    (btn_carb (fun _ => 2) 40 40 4).is_danger = true
    ∧ (btn_carb (fun _ => 2) 40 40 4).grade = CarbGrade.C
    ∧ (btn_carb (fun _ => 2) 40 40 4).grade ≠ CarbGrade.D :=
  (c9_hazard (fun _ => 2) 40 40 4).2 (by norm_num) rfl (by norm_num) (by norm_num)

end CarbApp
